import Mathlib

/-!
Verification development for the git-commitai-cli repository.

The TypeScript sources are shallowly embedded: JavaScript strings are Lean
`String`s (a wrapper around `List Char` in this toolchain), and the string
operations the code uses (`trim`, `startsWith`, `includes`, `toLowerCase`,
`split('\n')`, `replace`) are given explicit executable definitions over
`.data`.  Fallible operations return `Except`/`Option`; the mutable
configuration store and the process-exit control flow of the CLI layer are
made explicit state and result values.
-/

namespace GitCommitai

/-! ## JavaScript string primitives -/

/-- Whitespace characters removed by JavaScript `String.prototype.trim`
(the ASCII ones, which are the only ones relevant here). -/
def isJsWhitespace (c : Char) : Bool :=
  c = ' ' || c = '\t' || c = '\n' || c = '\r' || c = '\x0b' || c = '\x0c'

/-- JavaScript `s.trim()`: drop whitespace from both ends. -/
def jsTrim (s : String) : String :=
  ⟨(((s.data.dropWhile isJsWhitespace).reverse.dropWhile isJsWhitespace).reverse)⟩

/-- JavaScript `s.startsWith(p)`. -/
def jsStartsWith (s p : String) : Bool :=
  p.data.isPrefixOf s.data

/-- JavaScript `s.toLowerCase()` (character-wise lowering). -/
def toLowerStr (s : String) : String :=
  ⟨s.data.map Char.toLower⟩

/-- Contiguous-subsequence test on character lists; `containsSub hay needle`
is JavaScript `hay.includes(needle)`. -/
def containsSub : List Char → List Char → Bool
  | [], needle => needle.isEmpty
  | hay@(_ :: t), needle => needle.isPrefixOf hay || containsSub t needle

/-- JavaScript `s.includes(sub)`. -/
def jsIncludes (s sub : String) : Bool :=
  containsSub s.data sub.data

/-- JavaScript `s.split('\n')` on the character list; never returns `[]`
(splitting the empty string gives `[[]]`, i.e. `['']`). -/
def splitOnNl : List Char → List (List Char)
  | [] => [[]]
  | c :: cs =>
    match splitOnNl cs with
    | [] => [[]]
    | t :: ts => if c = '\n' then [] :: t :: ts else (c :: t) :: ts

/-! ## Message validator (src/unnamed/part_005, BaseAIManager.generateCommitMessage
validation branch, lines 82-99) -/

/-- The eight Conventional Commits type tokens of the regex
`/^(feat|fix|docs|style|refactor|perf|test|chore)/`. -/
def commitTypes : List String :=
  ["feat", "fix", "docs", "style", "refactor", "perf", "test", "chore"]

/-- `/^(feat|fix|docs|style|refactor|perf|test|chore)/.test(message)`:
the message starts with one of the eight type tokens. -/
def matchesConventionalCommits (message : String) : Bool :=
  commitTypes.any (fun t => jsStartsWith message t)

/-- JavaScript truthiness of the optional `prefix` parameter: present and
non-empty. -/
def prefixTruthy : Option String → Bool
  | some p => !(p = "")
  | none => false

/-- The validity predicate applied by `generateCommitMessage`:
`if (prefix) { message.startsWith(prefix) } else { regex test }`. -/
def isValidMessage (message : String) (pfx : Option String) : Bool :=
  if prefixTruthy pfx then jsStartsWith message (pfx.getD "")
  else matchesConventionalCommits message

/-! ## Generation retry engine (src/unnamed/part_005, BaseAIManager) -/

/-- `BaseAIManager.MAX_ATTEMPTS`. -/
def MAX_ATTEMPTS : Nat := 3

/-- Result record of `BaseAIManager.processValidMessage`. -/
structure ProcessResult where
  shouldReturn : Bool
  message : String
deriving DecidableEq, Repr

/-- `BaseAIManager.processValidMessage(message, prevMessage, attempts)`. -/
def processValidMessage (message prevMessage : String) (attempts : Nat) :
    ProcessResult :=
  if message ≠ prevMessage then ⟨true, message⟩
  else if attempts = MAX_ATTEMPTS - 1 then ⟨true, message⟩
  else ⟨false, message⟩

/-- Outcome of one `makeRequest` call as observed by the retry loop:
the promise either rejects (with an `Error` carrying a message, or some
non-`Error` value, modelled by `none`), or resolves.  A resolved value whose
content is missing or not a string is modelled by `resolved none`. -/
inductive BackendReply where
  | rejected (message : Option String)
  | resolved (content : Option String)
deriving DecidableEq, Repr

/-- Final outcome of `generateCommitMessage`: the returned string, or the
message of the thrown `AIError`. -/
inductive GenResult where
  | success (message : String)
  | failure (message : String)
deriving DecidableEq, Repr

/-- Fixed prompt prologue (part_005 lines 51-52). -/
def promptHead : String :=
  "Please suggest a git commit message following Conventional Commits format. The message MUST be a single line only."

/-- Conventional-Commits instruction block used when no prefix is given
(part_005 lines 56-57). -/
def conventionalInstruction : String :=
  " The message MUST start with one of these types: feat, fix, docs, style, refactor, perf, test, or chore. Always include a scope in parentheses (e.g., 'feat(auth)', 'fix(api)'). Use filenames, components, or affected areas as scope identifiers."

/-- Shared instruction tail (part_005 lines 59-60). -/
def imperativeInstruction : String :=
  " Use imperative mood and keep it concise. The description part MUST start with lowercase letters.\nExample format:\ntype(scope): add feature (not 'Add feature')\n\nImportant: reply with ONLY the commit message as a single line. No additional text, explanations, or multi-line commits."

/-- The full prompt built on every iteration (part_005 lines 51-68). -/
def buildPrompt (changes : String) (pfx : Option String)
    (previousMessages : List String) : String :=
  let p1 := promptHead ++
    (if prefixTruthy pfx then " The message MUST start with: " ++ pfx.getD ""
     else conventionalInstruction)
  let p2 := p1 ++ imperativeInstruction
  let p3 :=
    if previousMessages.length > 0 then
      p2 ++ "\n\nPlease generate a message different from the following previous messages:\n"
        ++ String.intercalate "\n" previousMessages
    else p2
  p3 ++ "\n\nChanges:\n" ++ changes

/-- The retry loop of `BaseAIManager.generateCommitMessage` (part_005 lines
47-117).  `backend i prompt` is the observed behaviour of the abstract
`makeRequest` on the `i`-th attempt.  The `fuel` argument makes the `for`
loop structurally recursive; the loop guard `attempts < MAX_ATTEMPTS` is
kept explicit, and running out of fuel yields the same safeguard failure the
exhausted loop yields, so any `fuel ≥ MAX_ATTEMPTS` gives the loop's true
behaviour.  The second component counts `makeRequest` invocations. -/
def generateAux (backend : Nat → String → BackendReply) (changes : String)
    (pfx : Option String) (previousMessages : List String) :
    Nat → Nat → String → GenResult × Nat
  | 0, _, _ => (.failure "Failed to generate commit message", 0)
  | fuel + 1, attempts, prevMessage =>
    if attempts < MAX_ATTEMPTS then
      let fullPrompt := buildPrompt changes pfx previousMessages
      match backend attempts fullPrompt with
      | .rejected msg => (.failure (msg.getD "Failed to generate commit message"), 1)
      | .resolved none => (.failure "Failed to generate commit message", 1)
      | .resolved (some content) =>
        let message := jsTrim content
        if isValidMessage message pfx then
          let processResult := processValidMessage message prevMessage attempts
          if processResult.shouldReturn then (.success processResult.message, 1)
          else
            let r := generateAux backend changes pfx previousMessages fuel (attempts + 1) message
            (r.1, r.2 + 1)
        else
          let r := generateAux backend changes pfx previousMessages fuel (attempts + 1) message
          (r.1, r.2 + 1)
    else (.failure "Failed to generate commit message", 0)

/-- `BaseAIManager.generateCommitMessage(changes, prefix, previousMessages)`
together with the number of backend calls it makes. -/
def generateCommitMessage (backend : Nat → String → BackendReply)
    (changes : String) (pfx : Option String) (previousMessages : List String) :
    GenResult × Nat :=
  generateAux backend changes pfx previousMessages MAX_ATTEMPTS 0 ""

/-! ## Diff collector (src/src/git/index.ts, GitManager) -/

/-- `GitManager.MAX_CHANGES_PER_FILE`. -/
def MAX_CHANGES_PER_FILE : Nat := 1000

/-- `GitManager.MAX_TOTAL_CHANGES`. -/
def MAX_TOTAL_CHANGES : Nat := 10000

/-- A thrown JavaScript value as the collector's `catch` distinguishes it:
an `Error` instance (carrying its message), or any other value. -/
inductive JsThrown where
  | errorInst (message : String)
  | nonError (value : String)
deriving DecidableEq, Repr

/-- Result of `GitManager.getStagedChanges`: the rendered change text, or
the `GitStatus.NO_STAGED_CHANGES` terminal status. -/
inductive StagedResult where
  | changesText (text : String)
  | noStagedChanges
deriving DecidableEq, Repr

/-- The `for (const file of files)` loop of `getStagedChanges` (index.ts
lines 78-98).  `diffOf` is `execSync('git diff --cached -- "<file>"')`,
which may throw.  Accumulates `allChanges` and `truncatedFiles`, tracking
`totalChangeCount`; once the total exceeds `MAX_TOTAL_CHANGES` and files
remain (counted via `files.indexOf(file)` as in the source), a skipped-files
marker is appended and the loop breaks. -/
def renderFiles (files : List String) (diffOf : String → Except JsThrown String) :
    List String → Nat → Nat → String → Except JsThrown (String × Nat)
  | [], _, truncatedFiles, allChanges => .ok (allChanges, truncatedFiles)
  | file :: rest, totalChangeCount, truncatedFiles, allChanges =>
    match diffOf file with
    | .error e => .error e
    | .ok fileChanges =>
      let changeCount := (splitOnNl fileChanges.data).length
      let newTotal := totalChangeCount + changeCount
      let step :=
        if changeCount > MAX_CHANGES_PER_FILE then
          (truncatedFiles + 1,
           allChanges ++ "[File: " ++ file ++ " - Too many changes to display ("
             ++ toString changeCount ++ " lines)]\n")
        else
          (truncatedFiles, allChanges ++ "[File: " ++ file ++ "]\n" ++ fileChanges ++ "\n\n")
      if newTotal > MAX_TOTAL_CHANGES then
        let remainingFiles := files.length - (files.indexOf file + 1)
        if remainingFiles > 0 then
          .ok (step.2 ++ "\n[" ++ toString remainingFiles
                ++ " more files not shown due to size constraints]\n", step.1)
        else renderFiles files diffOf rest newTotal step.1 step.2
      else renderFiles files diffOf rest newTotal step.1 step.2

/-- `GitManager.getStagedChanges` (index.ts lines 65-114).  `rawNames` is the
successful output of `execSync('git diff --cached --name-only')`; the
per-file diff reads may throw, and the `catch` wraps `Error` instances as
`GitError('Failed to get staged changes')` and re-raises anything else. -/
def getStagedChanges (rawNames : String)
    (diffOf : String → Except JsThrown String) : Except JsThrown StagedResult :=
  let files := (splitOnNl (jsTrim rawNames).data).map (fun l => (⟨l⟩ : String))
  if files.length = 0 ∨ (files.length = 1 ∧ files.head? = some "") then
    .ok .noStagedChanges
  else
    match renderFiles files diffOf files 0 0 "" with
    | .error (.errorInst _) => .error (.errorInst "Failed to get staged changes")
    | .error (.nonError v) => .error (.nonError v)
    | .ok (allChanges, truncatedFiles) =>
      let withSummary :=
        if truncatedFiles > 0 then
          "[" ++ toString truncatedFiles
            ++ " file(s) exceeded maximum line count and were truncated]\n\n" ++ allChanges
        else allChanges
      .ok (.changesText ("Files changed:\n" ++ String.intercalate "\n" files
            ++ "\n\nChanges:\n" ++ withSummary))

/-! ## Commit command construction (src/src/git/index.ts, GitManager.commit
lines 119-135) -/

/-- The character-wise effect of `message.replace(/"/g, '\\"')`: each double
quote becomes backslash + quote, everything else is untouched. -/
def escapeChar (c : Char) : List Char :=
  if c = '"' then ['\\', '"'] else [c]

/-- `message.replace(/"/g, '\\"')`. -/
def escapeQuotes (m : String) : String :=
  ⟨m.data.flatMap escapeChar⟩

/-- The shell command string built by `GitManager.commit`:
`` `git commit -m "${message.replace(/"/g, '\\"')}"${argsStr}` ``. -/
def commitCommand (message : String) (args : List String) : String :=
  let argsStr := if args.length > 0 then " " ++ String.intercalate " " args else ""
  "git commit -m \"" ++ escapeQuotes message ++ "\"" ++ argsStr

/-- POSIX-shell scanner for the inside of a double-quoted word, used to
interpret what the constructed command means to the shell.  The input is the
character stream immediately after the opening quote; the `Bool` records a
pending backslash.  Inside double quotes, a backslash escapes `"`, `\`, `$`
and backquote and is otherwise literal; the word ends at the first
unescaped `"`.  Returns the characters of the argument and the remaining
stream after the closing quote, or `none` if the quote is never closed. -/
def dqParseAux : Bool → List Char → Option (List Char × List Char)
  | _, [] => none
  | false, c :: rest =>
    if c = '"' then some ([], rest)
    else if c = '\\' then dqParseAux true rest
    else (dqParseAux false rest).map (fun p => (c :: p.1, p.2))
  | true, c :: rest =>
    let chunk := if c = '"' || c = '\\' || c = '$' || c = '\x60' then [c] else ['\\', c]
    (dqParseAux false rest).map (fun p => (chunk ++ p.1, p.2))

/-! ## Rate-limit classification (src/src/cli/commands.ts lines 174-189) -/

/-- The view of a caught JavaScript value used by the CLI layer:
whether it is an `Error` instance, its `name`, its string form
(`error.toString()`), and its `message` (`""` models an absent or empty
message, which behave identically under JS truthiness here). -/
structure JsErrorVal where
  isErrorInstance : Bool
  name : String
  str : String
  message : String
deriving DecidableEq, Repr

/-- `isRateLimitError(error)` (commands.ts lines 174-189); `none` models a
falsy `error`. -/
def isRateLimitError (e : Option JsErrorVal) : Bool :=
  match e with
  | none => false
  | some err =>
    let errorStr := toLowerStr err.str
    let errorMsg := toLowerStr err.message
    jsIncludes errorStr "rate limit" || jsIncludes errorStr "too many requests" ||
    jsIncludes errorStr "429" ||
    jsIncludes errorMsg "rate limit" || jsIncludes errorMsg "too many requests" ||
    jsIncludes errorMsg "429" || jsIncludes errorMsg "quota"

/-- The classifier as the specification words it: one of the four substrings
occurs, case-insensitively, in the string form or in the message field (all
four substrings applied to both forms).  Stated only to be compared with
`isRateLimitError`. -/
def specRateLimitClass (e : Option JsErrorVal) : Bool :=
  match e with
  | none => false
  | some err =>
    ["rate limit", "too many requests", "429", "quota"].any fun sub =>
      jsIncludes (toLowerStr err.str) sub || jsIncludes (toLowerStr err.message) sub

/-! ## Provider fallback coordinator (src/src/cli/commands.ts,
promptCommitMessage lines 317-459) -/

/-- `ApiProvider` (src/src/types/index.ts). -/
inductive ApiProvider where
  | openai
  | google
  | anthropic
deriving DecidableEq, Repr

/-- The user-cancellation test applied in the `catch` of
`promptCommitMessage` (commands.ts lines 396-401). -/
def isCancellationError (e : JsErrorVal) : Bool :=
  e.isErrorInstance &&
    (e.name = "ExitPromptError" || jsIncludes e.message "SIGINT" ||
     jsIncludes e.message "force_closed")

/-- The terminal message printed when every configured provider was tried
(commands.ts line 448). -/
def exhaustedMsg : String :=
  "Rate limit reached for all available providers. Please try again later."

/-- How one invocation of `promptCommitMessage` ends: a normal return, a
`process.exit` (which unwinds nothing — pending `finally`-style restores in
outer frames never run), or a thrown value propagating to the caller. -/
inductive FlowResult where
  | completed
  | exited (code : Nat) (message : String)
  | thrown (e : JsErrorVal)
deriving DecidableEq, Repr

/-- The fallback logic of `promptCommitMessage` (commands.ts lines 317-459).
The body of the `try` block (key lookup, diff collection, generation,
confirmation, commit) is abstracted as `behavior provider`: `none` when the
flow completes normally, `some e` when it throws `e`.  `avail` is
`configManager.getAvailableProviders()` (fixed: the cascade only changes the
default provider, never the stored keys), `store` is the persisted default
provider, `tried` is the `triedProviders` parameter.  Returns the flow
result, the final persisted default provider, and the providers invoked in
order.  `fuel` bounds the recursion (any `fuel` exceeding the number of
configured providers is enough; the out-of-fuel value is never reached
then). -/
def promptFlow (behavior : ApiProvider → Option JsErrorVal)
    (avail : List ApiProvider) :
    Nat → List ApiProvider → ApiProvider → FlowResult × ApiProvider × List ApiProvider
  | 0, _, store => (.exited 255 "model: out of fuel", store, [])
  | fuel + 1, tried, store =>
    let provider := store
    match behavior provider with
    | none => (.completed, store, [provider])
    | some e =>
      if isCancellationError e then (.exited 0 "", store, [provider])
      else if isRateLimitError (some e) then
        let newTried := tried ++ [provider]
        match avail.find? (fun p => !newTried.contains p) with
        | some nextProvider =>
          match promptFlow behavior avail fuel newTried nextProvider with
          | (.completed, _, calls) => (.completed, provider, provider :: calls)
          | (.thrown e2, _, calls) => (.thrown e2, provider, provider :: calls)
          | (.exited c m, s, calls) => (.exited c m, s, provider :: calls)
        | none => (.exited 1 exhaustedMsg, store, [provider])
      else
        (.exited 1 (if e.isErrorInstance then e.message
                    else "Failed to generate commit message"), store, [provider])

/-! ## Helper lemmas -/

/-- A string with a non-empty prefix is non-empty. -/
theorem jsStartsWith_ne_empty {m p : String} (h : jsStartsWith m p = true)
    (hp : p ≠ "") : m ≠ "" := by
  intro hm
  subst hm
  rw [jsStartsWith, List.isPrefixOf_iff_prefix] at h
  have : p.data <+: [] := h
  rw [List.prefix_nil] at this
  apply hp
  cases p
  simp_all

/-- A message accepted by the validator is non-empty. -/
theorem valid_ne_empty {m : String} (pfx : Option String)
    (h : isValidMessage m pfx = true) : m ≠ "" := by
  rw [isValidMessage] at h
  by_cases ht : prefixTruthy pfx = true
  · rw [if_pos ht] at h
    cases pfx with
    | none => simp [prefixTruthy] at ht
    | some p =>
      simp only [prefixTruthy, Bool.not_eq_true', decide_eq_false_iff_not] at ht
      exact jsStartsWith_ne_empty (by simpa using h) ht
  · rw [if_neg ht] at h
    intro hm
    subst hm
    exact absurd h (by decide)

/-- `processValidMessage` always hands back the message it was given. -/
theorem processValidMessage_message (message prevMessage : String) (attempts : Nat) :
    (processValidMessage message prevMessage attempts).message = message := by
  rw [processValidMessage]
  split
  · rfl
  · split <;> rfl

/-- The retry loop performs at most `fuel` backend calls. -/
theorem generateAux_calls_le (backend : Nat → String → BackendReply)
    (changes : String) (pfx : Option String) (previousMessages : List String) :
    ∀ fuel attempts prevMessage,
      (generateAux backend changes pfx previousMessages fuel attempts prevMessage).2 ≤ fuel := by
  intro fuel
  induction fuel with
  | zero => intro _ _; simp [generateAux]
  | succ n ih =>
    intro attempts prevMessage
    simp only [generateAux]
    split
    · cases backend attempts (buildPrompt changes pfx previousMessages) with
      | rejected msg => simp
      | resolved content =>
        cases content with
        | none => simp
        | some c =>
          simp only []
          split
          · split
            · simp
            · have := ih (attempts + 1) (jsTrim c)
              simp only []
              omega
          · have := ih (attempts + 1) (jsTrim c)
            simp only []
            omega
    · simp

/-- The loop's behaviour does not depend on the fuel once the fuel covers the
remaining loop iterations: the `for` loop of `generateCommitMessage` really
terminates within `MAX_ATTEMPTS` iterations. -/
theorem generateAux_fuel_irrel (backend : Nat → String → BackendReply)
    (changes : String) (pfx : Option String) (previousMessages : List String) :
    ∀ fuel fuel' attempts prevMessage,
      MAX_ATTEMPTS ≤ attempts + fuel → MAX_ATTEMPTS ≤ attempts + fuel' →
      generateAux backend changes pfx previousMessages fuel attempts prevMessage =
        generateAux backend changes pfx previousMessages fuel' attempts prevMessage := by
  intro fuel
  induction fuel with
  | zero =>
    intro fuel' attempts prevMessage h h'
    have hge : ¬ attempts < MAX_ATTEMPTS := Nat.not_lt.mpr (by omega)
    cases fuel' with
    | zero => rfl
    | succ m => simp only [generateAux, if_neg hge]
  | succ n ih =>
    intro fuel' attempts prevMessage h h'
    cases fuel' with
    | zero =>
      have hge : ¬ attempts < MAX_ATTEMPTS := Nat.not_lt.mpr (by omega)
      simp only [generateAux, if_neg hge]
    | succ m =>
      by_cases hlt : attempts < MAX_ATTEMPTS
      · simp only [generateAux, if_pos hlt]
        cases backend attempts (buildPrompt changes pfx previousMessages) with
        | rejected msg => rfl
        | resolved content =>
          cases content with
          | none => rfl
          | some c =>
            simp only []
            split
            · split
              · rfl
              · rw [ih m (attempts + 1) (jsTrim c) (by omega) (by omega)]
            · rw [ih m (attempts + 1) (jsTrim c) (by omega) (by omega)]
      · simp only [generateAux, if_neg hlt]

/-- A successful loop result went through the validation gate. -/
theorem generateAux_success_valid (backend : Nat → String → BackendReply)
    (changes : String) (pfx : Option String) (previousMessages : List String) :
    ∀ fuel attempts prevMessage m,
      (generateAux backend changes pfx previousMessages fuel attempts prevMessage).1 =
        .success m → isValidMessage m pfx = true := by
  intro fuel
  induction fuel with
  | zero => intro _ _ _ h; simp [generateAux] at h
  | succ k ih =>
    intro attempts prevMessage m h
    simp only [generateAux] at h
    by_cases hlt : attempts < MAX_ATTEMPTS
    · rw [if_pos hlt] at h
      cases hb : backend attempts (buildPrompt changes pfx previousMessages) with
      | rejected msg => rw [hb] at h; simp at h
      | resolved content =>
        rw [hb] at h
        cases content with
        | none => simp at h
        | some c =>
          simp only [] at h
          by_cases hv : isValidMessage (jsTrim c) pfx = true
          · rw [if_pos hv] at h
            by_cases hr :
                (processValidMessage (jsTrim c) prevMessage attempts).shouldReturn = true
            · rw [if_pos hr] at h
              simp only [GenResult.success.injEq] at h
              rw [← h, processValidMessage_message]
              exact hv
            · rw [if_neg hr] at h
              exact ih (attempts + 1) (jsTrim c) m h
          · rw [if_neg hv] at h
            exact ih (attempts + 1) (jsTrim c) m h
    · rw [if_neg hlt] at h
      simp at h

/-! ## Claims -/

/-- C1: for every input (changes text, optional prefix, previous-messages
list) and every backend behaviour, `generateCommitMessage` terminates — its
loop's outcome is already fixed at `MAX_ATTEMPTS` fuel, any extra fuel is
never consumed — and it invokes the backend's `makeRequest` at most
`MAX_ATTEMPTS = 3` times before returning a message or failing. -/
theorem generate_terminates_within_max_attempts :
    ∀ (backend : Nat → String → BackendReply) (changes : String)
      (pfx : Option String) (previousMessages : List String),
      (∀ fuel, MAX_ATTEMPTS ≤ fuel →
        generateAux backend changes pfx previousMessages fuel 0 "" =
          generateCommitMessage backend changes pfx previousMessages) ∧
      (generateCommitMessage backend changes pfx previousMessages).2 ≤ MAX_ATTEMPTS := by
  intro backend changes pfx previousMessages
  constructor
  · intro fuel hfuel
    exact generateAux_fuel_irrel backend changes pfx previousMessages fuel MAX_ATTEMPTS 0 ""
      (by omega) (by omega)
  · exact generateAux_calls_le backend changes pfx previousMessages MAX_ATTEMPTS 0 ""

/-- A sample backend, used only to instantiate witnesses. -/
def sampleBackend : Nat → String → BackendReply :=
  fun _ _ => .resolved (some "feat(core): add parser")

/-- Witness for C1 at a concrete backend, input and fuel. -/
theorem generate_terminates_within_max_attempts_witness :
    generateAux sampleBackend "chg" none [] 7 0 "" =
      generateCommitMessage sampleBackend "chg" none [] ∧
    (generateCommitMessage sampleBackend "chg" none []).2 ≤ MAX_ATTEMPTS :=
  ⟨(generate_terminates_within_max_attempts sampleBackend "chg" none []).1 7 (by decide),
   (generate_terminates_within_max_attempts sampleBackend "chg" none []).2⟩

/-- C2: the validity predicate of the retry engine: with a present non-empty
prefix `p`, a string is valid iff it starts with `p` (exact, case-sensitive);
with an empty or absent prefix, valid iff it starts with one of the eight
literal tokens feat, fix, docs, style, refactor, perf, test, chore. -/
theorem validator_spec :
    ∀ (s : String) (p : String),
      (p ≠ "" → (isValidMessage s (some p) = true ↔ jsStartsWith s p = true)) ∧
      (isValidMessage s (some "") = true ↔
        (jsStartsWith s "feat" = true ∨ jsStartsWith s "fix" = true ∨
         jsStartsWith s "docs" = true ∨ jsStartsWith s "style" = true ∨
         jsStartsWith s "refactor" = true ∨ jsStartsWith s "perf" = true ∨
         jsStartsWith s "test" = true ∨ jsStartsWith s "chore" = true)) ∧
      (isValidMessage s none = true ↔
        (jsStartsWith s "feat" = true ∨ jsStartsWith s "fix" = true ∨
         jsStartsWith s "docs" = true ∨ jsStartsWith s "style" = true ∨
         jsStartsWith s "refactor" = true ∨ jsStartsWith s "perf" = true ∨
         jsStartsWith s "test" = true ∨ jsStartsWith s "chore" = true)) := by
  intro s p
  refine ⟨fun hp => ?_, ?_, ?_⟩
  · simp [isValidMessage, prefixTruthy, hp]
  · simp [isValidMessage, prefixTruthy, matchesConventionalCommits, commitTypes]
  · simp [isValidMessage, prefixTruthy, matchesConventionalCommits, commitTypes]

/-- Witness for C2 at a concrete message and prefix. -/
theorem validator_spec_witness :
    ("fix(api):" : String) ≠ "" ∧
    (isValidMessage "fix(api): handle 404" (some "fix(api):") = true ↔
      jsStartsWith "fix(api): handle 404" "fix(api):" = true) :=
  ⟨by decide, (validator_spec "fix(api): handle 404" "fix(api):").1 (by decide)⟩

/-- C3 counterexample: a backend that returns the identical valid message on
every attempt makes `generateCommitMessage` return it after a single backend
call — not on the 3rd attempt as claimed.  The stored previous candidate
starts empty and a valid message is never equal to it, so the first valid
response returns immediately. -/
theorem identical_message_returns_first_attempt_cex :
    generateCommitMessage (fun _ _ => .resolved (some "feat: add x")) "chg" none [] =
      (.success "feat: add x", 1) ∧ (1 : Nat) ≠ MAX_ATTEMPTS := by
  decide

/-- C3 amended: if the backend returns the identical valid message on every
attempt, `generateCommitMessage` returns that message (trimmed) on the 1st
attempt, after exactly one backend call, rather than failing; the
final-attempt override of `processValidMessage` is never what returns it. -/
theorem identical_message_returns_first_attempt :
    ∀ (content changes : String) (pfx : Option String) (previousMessages : List String),
      isValidMessage (jsTrim content) pfx = true →
      generateCommitMessage (fun _ _ => .resolved (some content)) changes pfx previousMessages =
        (.success (jsTrim content), 1) := by
  intro content changes pfx previousMessages h
  have hne : jsTrim content ≠ "" := valid_ne_empty pfx h
  rw [generateCommitMessage, show MAX_ATTEMPTS = 2 + 1 from rfl]
  simp only [generateAux]
  rw [if_pos (by decide : (0 : Nat) < MAX_ATTEMPTS)]
  simp [h, processValidMessage, hne]

/-- Witness for the amended C3 at a concrete identical valid message. -/
theorem identical_message_returns_first_attempt_witness :
    isValidMessage (jsTrim "feat: add x") none = true ∧
    generateCommitMessage (fun _ _ => .resolved (some "feat: add x")) "c" none [] =
      (.success (jsTrim "feat: add x"), 1) :=
  ⟨by decide, identical_message_returns_first_attempt "feat: add x" "c" none [] (by decide)⟩

/-- C9: every message returned successfully by the retry engine is non-empty
and satisfies the validity rule (prefix rule when a non-empty prefix was
supplied, Conventional-Commits type rule otherwise) at the moment of
return. -/
theorem returned_message_valid_nonempty :
    ∀ (backend : Nat → String → BackendReply) (changes : String)
      (pfx : Option String) (previousMessages : List String) (m : String),
      (generateCommitMessage backend changes pfx previousMessages).1 = .success m →
      isValidMessage m pfx = true ∧ m ≠ "" := by
  intro backend changes pfx previousMessages m h
  have hv := generateAux_success_valid backend changes pfx previousMessages
    MAX_ATTEMPTS 0 "" m h
  exact ⟨hv, valid_ne_empty pfx hv⟩

/-- Witness for C9 at a concrete backend run. -/
theorem returned_message_valid_nonempty_witness :
    isValidMessage "feat(core): add parser" none = true ∧
    ("feat(core): add parser" : String) ≠ "" :=
  returned_message_valid_nonempty sampleBackend "chg" none [] "feat(core): add parser"
    (by decide)

/-- Splitting a newline-free character list on newlines gives it back as the
single line. -/
theorem splitOnNl_no_nl : ∀ (l : List Char), (∀ c ∈ l, c ≠ '\n') →
    splitOnNl l = [l] := by
  intro l h
  induction l with
  | nil => rfl
  | cons c t ih =>
    rw [splitOnNl, ih (fun x hx => h x (List.mem_cons_of_mem c hx))]
    simp [h c (List.mem_cons_self c t)]

/-- Splitting `n` newlines yields `n + 1` empty lines. -/
theorem splitOnNl_replicate_nl : ∀ n : Nat,
    splitOnNl (List.replicate n '\n') = List.replicate (n + 1) [] := by
  intro n
  induction n with
  | zero => rfl
  | succ k ih =>
    rw [List.replicate_succ, splitOnNl, ih, List.replicate_succ]
    simp [List.replicate_succ]

/-- C4: evaluation of `getStagedChanges` at the failing input of the
repository's own test "should handle binary/asset files without diffing":
the staged path `image.png` is rendered as an ordinary `[File: image.png]`
diff section — the output never contains the `Binary/Asset file` marker the
test, the CHANGELOG and the specification require, because the code performs
no extension-based classification at all. -/
theorem binary_asset_not_classified :
    getStagedChanges "image.png" (fun _ => .ok "") =
      .ok (.changesText "Files changed:\nimage.png\n\nChanges:\n[File: image.png]\n\n\n") ∧
    containsSub ("Files changed:\nimage.png\n\nChanges:\n[File: image.png]\n\n\n").data
      ("Binary/Asset file").data = false :=
  ⟨by rfl, by decide⟩

/-- C5: a single staged file whose fetched diff counts
`MAX_CHANGES_PER_FILE + 1` lines renders as the truncation marker carrying
that exact count instead of the diff body, with the
`1 file(s) exceeded maximum line count` summary prepended to the changes
section. -/
theorem per_file_truncation :
    ∀ (f d : String) (diffOf : String → Except JsThrown String),
      f ≠ "" → (∀ c ∈ f.data, c ≠ '\n') → jsTrim f = f →
      diffOf f = .ok d →
      (splitOnNl d.data).length = MAX_CHANGES_PER_FILE + 1 →
      getStagedChanges f diffOf = .ok (.changesText
        ("Files changed:\n" ++ f ++ "\n\nChanges:\n"
          ++ ("[1 file(s) exceeded maximum line count and were truncated]\n\n"
              ++ ("[File: " ++ f ++ " - Too many changes to display ("
                  ++ toString (MAX_CHANGES_PER_FILE + 1) ++ " lines)]\n")))) := by
  intro f d diffOf hne hnl htrim hdiff hcount
  rw [getStagedChanges, htrim, splitOnNl_no_nl f.data hnl]
  rw [show List.map (fun l => (⟨l⟩ : String)) [f.data] = [f] from rfl]
  rw [if_neg (by simp [hne])]
  rw [renderFiles, hdiff]
  dsimp only []
  simp only [hcount]
  rw [if_pos (by decide : MAX_CHANGES_PER_FILE + 1 > MAX_CHANGES_PER_FILE)]
  rw [if_neg (by decide : ¬ 0 + (MAX_CHANGES_PER_FILE + 1) > MAX_TOTAL_CHANGES)]
  rw [renderFiles]
  dsimp only []
  rw [if_pos (by decide : (0 : Nat) + 1 > 0)]
  rw [show String.intercalate "\n" [f] = f from rfl]
  rw [show toString ((0 : Nat) + 1) = "1" from rfl]
  rw [show ("[" : String) ++ "1" = "[1" from rfl]
  rw [show ("[1" : String) ++ " file(s) exceeded maximum line count and were truncated]\n\n"
        = "[1 file(s) exceeded maximum line count and were truncated]\n\n" from rfl]
  rw [show ("" : String) ++ "[File: " = "[File: " from rfl]

/-- A 1001-line diff (1000 newline characters), used to instantiate the C5
witness. -/
def bigDiff : String := ⟨List.replicate 1000 '\n'⟩

/-- Witness for C5 at a concrete staged file and diff. -/
theorem per_file_truncation_witness :
    getStagedChanges "a.txt" (fun _ => .ok bigDiff) = .ok (.changesText
      ("Files changed:\n" ++ "a.txt" ++ "\n\nChanges:\n"
        ++ ("[1 file(s) exceeded maximum line count and were truncated]\n\n"
            ++ ("[File: " ++ "a.txt" ++ " - Too many changes to display ("
                ++ toString (MAX_CHANGES_PER_FILE + 1) ++ " lines)]\n")))) :=
  per_file_truncation "a.txt" bigDiff (fun _ => .ok bigDiff)
    (by decide) (by decide) (by decide) rfl
    (by rw [show bigDiff.data = List.replicate 1000 '\n' from rfl, splitOnNl_replicate_nl,
          List.length_replicate]
        rfl)

/-- C6: an empty staged-file list (the name-only listing trims to the empty
string, which the code detects as the single empty path) yields the
`NO_STAGED_CHANGES` terminal status as a normal return, never a raised
error, for every behaviour of the per-file diff reads. -/
theorem no_staged_changes_terminal :
    ∀ (rawNames : String) (diffOf : String → Except JsThrown String),
      jsTrim rawNames = "" →
      getStagedChanges rawNames diffOf = .ok .noStagedChanges := by
  intro rawNames diffOf h
  rw [getStagedChanges, h]
  rfl

/-- Witness for C6 at a concrete whitespace-only listing. -/
theorem no_staged_changes_terminal_witness :
    getStagedChanges "  \n " (fun _ => .error (.errorInst "boom")) = .ok .noStagedChanges :=
  no_staged_changes_terminal "  \n " (fun _ => .error (.errorInst "boom")) (by decide)

/-- C7 counterexample: a thrown non-`Error` value (e.g. the string
`'quota exceeded'`) whose string form contains `quota` but which has no
message field is not classified as rate-limit by the code, although the
claim's predicate — any of the four substrings in the string form or the
message field — accepts it: the code checks `quota` only against the
message field. -/
theorem quota_without_message_not_classified_cex :
    isRateLimitError (some ⟨false, "", "quota exceeded", ""⟩) = false ∧
    jsIncludes (toLowerStr "quota exceeded") "quota" = true ∧
    specRateLimitClass (some ⟨false, "", "quota exceeded", ""⟩) = true := by
  decide

/-- C7 amended: a failure is rate-limit class iff `rate limit`,
`too many requests` or `429` occurs (case-insensitively) in its string form,
or `rate limit`, `too many requests`, `429` or `quota` occurs in its message
field: only the first three substrings are applied to the string form,
`quota` is applied to the message field alone; a falsy failure is never
classified. -/
theorem rate_limit_classifier :
    ∀ (e : JsErrorVal),
      (isRateLimitError (some e) = true ↔
        (jsIncludes (toLowerStr e.str) "rate limit" = true ∨
         jsIncludes (toLowerStr e.str) "too many requests" = true ∨
         jsIncludes (toLowerStr e.str) "429" = true ∨
         jsIncludes (toLowerStr e.message) "rate limit" = true ∨
         jsIncludes (toLowerStr e.message) "too many requests" = true ∨
         jsIncludes (toLowerStr e.message) "429" = true ∨
         jsIncludes (toLowerStr e.message) "quota" = true)) ∧
      isRateLimitError none = false := by
  intro e
  exact ⟨by simp [isRateLimitError]; tauto, rfl⟩

/-- The stable provider order of the closed enumeration, as
`getAvailableProviders` reports it for a configuration holding keys for all
three providers (insertion order openai, google, anthropic). -/
def providerOrder : List ApiProvider := [.openai, .google, .anthropic]

/-- A behaviour where every provider fails with a rate-limit-classified
error. -/
def allRateLimited : ApiProvider → Option JsErrorVal :=
  fun _ => some ⟨true, "Error", "Error: 429 Too Many Requests", "429 Too Many Requests"⟩

/-- A behaviour where exactly one provider succeeds and the others fail with
rate-limit-classified errors. -/
def succeedsOnlyOn (winner : ApiProvider) : ApiProvider → Option JsErrorVal :=
  fun p => if p = winner then none else allRateLimited p

/-- The provider left as persisted default after the all-rate-limited
cascade starting from a given default: the last untried provider in stable
order. -/
def lastTriedAll : ApiProvider → ApiProvider
  | .openai => .anthropic
  | .google => .anthropic
  | .anthropic => .google

/-- C8 counterexample: with 3 configured providers all rate-limited and
default `openai`, the cascade tries each provider exactly once in stable
order and exits with the exhausted message — but the exhausted branch calls
`process.exit(1)`, which unwinds nothing, so the pending restores in the
outer frames never run and the persisted default provider is left at
`anthropic`, not restored to `openai`. -/
theorem fallback_no_restore_on_exhaustion_cex :
    promptFlow allRateLimited providerOrder 4 [] .openai =
      (.exited 1 exhaustedMsg, .anthropic, [.openai, .google, .anthropic]) ∧
    ApiProvider.anthropic ≠ ApiProvider.openai := by
  decide

/-- C8 amended: with 3 configured providers all producing
rate-limit-classified failures, the cascade tries every configured provider
exactly once in stable order and then fails with the all-providers-exhausted
message via `process.exit(1)`; the originally-active default provider is
restored when the cascade ends in success (and on a propagated thrown
error), but in the all-exhausted failure outcome the exit skips the pending
restores and the persisted default is left at the last tried provider. -/
theorem fallback_cascade_behaviour :
    ∀ (fuel : Nat) (start : ApiProvider),
      (promptFlow allRateLimited providerOrder (fuel + 3) [] start =
        (.exited 1 exhaustedMsg, lastTriedAll start,
          start :: providerOrder.filter (fun p => p ≠ start))) ∧
      (promptFlow (succeedsOnlyOn .anthropic) providerOrder (fuel + 3) [] .openai =
        (.completed, .openai, [.openai, .google, .anthropic])) := by
  intro fuel start
  exact ⟨by cases start <;> rfl, rfl⟩

/-- C10 counterexample: the message consisting of a backslash followed by a
double quote escapes to backslash-backslash-quote; inside the double-quoted
`-m` argument the shell reads `\\` as a literal backslash and the following
quote — which came from the message — as the closing delimiter: the quoted
argument terminates early, with leftover input, and the argument read back
differs from the message. -/
theorem escaped_quote_still_terminates_cex :
    (escapeQuotes "\\\"").data = ['\\', '\\', '"'] ∧
    dqParseAux false ((escapeQuotes "\\\"").data ++ ['"']) = some (['\\'], ['"']) ∧
    (['\\'] : List Char) ≠ ("\\\"" : String).data := by
  decide

/-- With no backslash in the original list, the escaped stream followed by
the closing quote parses back to exactly the original list with nothing left
over. -/
theorem dqParse_escape_no_backslash : ∀ (l : List Char), '\\' ∉ l →
    dqParseAux false (l.flatMap escapeChar ++ ['"']) = some (l, []) := by
  intro l
  induction l with
  | nil => intro _; rfl
  | cons c t ih =>
    intro h
    have hc : c ≠ '\\' := fun hh => h (hh ▸ List.mem_cons_self c t)
    have ht : '\\' ∉ t := fun hh => h (List.mem_cons_of_mem c hh)
    have hrec := ih ht
    by_cases hq : c = '"'
    · subst hq
      rw [List.flatMap_cons]
      show dqParseAux false ('\\' :: '"' :: (t.flatMap escapeChar ++ ['"'])) =
        some ('"' :: t, [])
      simp [dqParseAux, hrec]
    · rw [List.flatMap_cons, show escapeChar c = [c] from by simp [escapeChar, hq]]
      show dqParseAux false (c :: (t.flatMap escapeChar ++ ['"'])) = some (c :: t, [])
      simp [dqParseAux, hq, hc, hrec]

/-- C10 amended: the commit command embeds the message inside the quoted
`-m` argument with every double quote replaced by backslash + quote and no
other character altered; for messages containing no backslash this keeps
every quote of the message from terminating the quoted argument — the shell
reads back exactly the message — but a backslash followed by a double quote
in the message still terminates the quoted argument early (see the
counterexample). -/
theorem commit_escaping :
    ∀ (m : String) (args : List String),
      commitCommand m args =
        "git commit -m \"" ++ escapeQuotes m ++ "\""
          ++ (if args.length > 0 then " " ++ String.intercalate " " args else "") ∧
      (∀ c ∈ m.data, c ≠ '"' → escapeChar c = [c]) ∧
      ('\\' ∉ m.data →
        dqParseAux false ((escapeQuotes m).data ++ ['"']) = some (m.data, [])) := by
  intro m args
  refine ⟨rfl, fun c _ hc => by simp [escapeChar, hc], fun hnb => ?_⟩
  exact dqParse_escape_no_backslash m.data hnb

/-- Witness for the amended C10 at a concrete quoted message. -/
theorem commit_escaping_witness :
    commitCommand "say \"hi\"" ["--amend"] =
      "git commit -m \"" ++ escapeQuotes "say \"hi\"" ++ "\""
        ++ (if (["--amend"] : List String).length > 0
            then " " ++ String.intercalate " " ["--amend"] else "") ∧
    escapeChar 's' = ['s'] ∧
    dqParseAux false ((escapeQuotes "say \"hi\"").data ++ ['"']) =
      some (("say \"hi\"" : String).data, []) :=
  ⟨(commit_escaping "say \"hi\"" ["--amend"]).1,
   (commit_escaping "say \"hi\"" ["--amend"]).2.1 's' (by decide) (by decide),
   (commit_escaping "say \"hi\"" ["--amend"]).2.2 (by decide)⟩

end GitCommitai
